import Mathlib

/-!
# Biome server: verification of the seed-safety gateway

A shallow embedding of the Python sources of the Biome server
(`server.py`, `safety.py`, `engine_manager.py`) together with proofs
about the seed-safety cache, the safety classifier's verdict rule,
the websocket session loop (frame ids, control coalescing, the
frame-count ceiling), the cache persistence routine and the seed
upload/delete endpoints.

Conventions of the embedding:

* Python dicts that map filenames to records become association lists
  `List (String × α)`; insertion replaces the first matching key in
  place and otherwise appends, matching insertion-ordered `dict`
  update semantics.
* The file system visible to the server is a record of: the seed
  files present in the two watched directories, a file-existence
  predicate, a hashing function (`none` models `compute_file_hash`
  raising, e.g. on an unreadable file), and the (deterministic)
  safety classifier's output per image path.
* Frames are abstract (`F`), produced by a `decode` function that
  models `WorldEngineManager.load_seed_from_file` (returns `none`
  when PIL fails to decode the file).
* Times (`time.time()` values) are `Nat` parameters supplied at each
  call, so that two successive calls can be given distinct clocks.
-/

namespace Biome

/-! ## Safety classifier (`safety.py`) -/

/-- Cumulative class scores returned by `predict_batch_values`
(fields `neutral`, `low`, `medium`, `high`); probabilities are
modelled as rationals. -/
structure Scores where
  neutral : ℚ
  low : ℚ
  medium : ℚ
  high : ℚ
deriving DecidableEq, Repr

/-- The `{is_safe, scores}` dictionary returned by `check_image` /
`check_batch`. -/
structure Verdict where
  is_safe : Bool
  scores : Scores
deriving DecidableEq, Repr

/-- Score profile assigned on a failed load (`safety.py` lines
117-120 and 179-187): `{neutral: 0, low: 1, medium: 0, high: 0}`. -/
def errorScores : Scores := ⟨0, 1, 0, 0⟩

/-- The unsafe verdict used for failed loads and batch failure. -/
def errorVerdict : Verdict := ⟨false, errorScores⟩

/-- Verdict built from computed scores: `is_safe = scores["low"] < 0.5`
(`safety.py` lines 112 and 191). -/
def verdictOfScores (s : Scores) : Verdict := ⟨decide (s.low < 1/2), s⟩

/-- The `SafetyChecker.check_image` (`safety.py` 84-125): the argument is
the outcome of opening, converting and scoring the image (`none`
models any exception in that block); errors yield the conservative
unsafe verdict. -/
def checkImage (loaded : Option Scores) : Verdict :=
  match loaded with
  | some s => verdictOfScores s
  | none => errorVerdict

/-- Batching loop of `check_batch` (`for i in range(0, len(valid_images),
batch_size)`): splits a list into chunks of size `bs`.  Only meaningful
for `bs ≥ 1` (with `batch_size = 0` the Python `range` raises, which is
caught by the batch-failure handler). -/
def chunks (bs : Nat) : List α → List (List α)
  | [] => []
  | x :: t => (x :: t).take bs :: chunks bs (t.drop (bs - 1))
termination_by l => l.length
decreasing_by
  simp only [List.length_cons, List.length_drop]
  omega

/-- Second pass of `check_batch` (`safety.py` 172-194): walk the input
images again, consuming one score per successfully loaded image
(`score_idx`), and emit the unsafe profile for failed loads. -/
def rebuildResults : List (Option α) → List Scores → List Verdict
  | [], _ => []
  | none :: t, ss => errorVerdict :: rebuildResults t ss
  | some _ :: _, [] => []
  | some _ :: t, s :: ss => verdictOfScores s :: rebuildResults t ss

/-- Body of the `try` block of `check_batch` (`safety.py` 149-194):
`images` holds the per-path load results (`none` = failed load), `f`
is the per-image scoring function realised by the model, `bs` the
batch size. -/
def checkBatchTry (f : α → Scores) (bs : Nat) (images : List (Option α)) :
    List Verdict :=
  rebuildResults images
    (((chunks bs (images.filterMap id)).map (fun b => b.map f)).flatten)

/-- The `SafetyChecker.check_batch` (`safety.py` 127-207).  `crash = true`
models an exception escaping the `try` block (a classifier crash): the
whole batch is reported unsafe. -/
def checkBatch (f : α → Scores) (bs : Nat) (crash : Bool)
    (images : List (Option α)) : List Verdict :=
  if images.isEmpty then []
  else if crash then images.map (fun _ => errorVerdict)
  else checkBatchTry f bs images

/-! ## Association lists (Python `dict` keyed by filename) -/

/-- The `d.get(k)` / `d[k]` on an insertion-ordered dict. -/
def lookupEntry : List (String × α) → String → Option α
  | [], _ => none
  | (k, v) :: t, n => if k = n then some v else lookupEntry t n

/-- The `d[k] = v`: replace the first binding of `k` in place, or append a
new one, matching Python dict update semantics. -/
def insertEntry : List (String × α) → String → α → List (String × α)
  | [], k, v => [(k, v)]
  | (k', v') :: t, k, v =>
      if k' = k then (k, v) :: t else (k', v') :: insertEntry t k v

/-- The `k in d`. -/
def containsKey (l : List (String × α)) (k : String) : Bool :=
  (lookupEntry l k).isSome

/-- The `del d[k]`. -/
def removeEntry (l : List (String × α)) (k : String) : List (String × α) :=
  l.filter (fun kv => kv.1 != k)

/-! ## Paths and filename checks (`server.py` 100-125, 653) -/

/-- The `DEFAULT_SEEDS_DIR` (pre-bundled seeds). -/
def defaultSeedsDir : String := "world_engine/seeds/default"

/-- The `UPLOADS_DIR` (user uploads). -/
def uploadsDir : String := "world_engine/seeds/uploads"

/-- Absolute path of a default seed. -/
def defaultSeedPath (n : String) : String := defaultSeedsDir ++ "/" ++ n

/-- Absolute path of an uploaded seed. -/
def uploadSeedPath (n : String) : String := uploadsDir ++ "/" ++ n

/-- Python `s.startswith(p)` on path strings. -/
def strStartsWith (s p : String) : Bool := p.data.isPrefixOf s.data

/-- Python `str.lower()`, at the character level. -/
def strLower (s : String) : String := ⟨s.data.map Char.toLower⟩

/-- Python `s.endswith(p)`. -/
def strEndsWith (s p : String) : Bool := p.data.reverse.isPrefixOf s.data.reverse

/-- Python `str.strip()` (whitespace removed at both ends). -/
def strStrip (s : String) : String :=
  ⟨((s.data.dropWhile Char.isWhitespace).reverse.dropWhile Char.isWhitespace).reverse⟩

/-- The `SUPPORTED_IMAGE_EXTENSIONS`. -/
def supportedExts : List String := [".png", ".jpg", ".jpeg", ".webp"]

/-- The `any(filename.lower().endswith(ext) for ext in SUPPORTED_IMAGE_EXTENSIONS)`
(`server.py` 653). -/
def isSupportedSeedFilename (fn : String) : Bool :=
  supportedExts.any (fun e => strEndsWith (strLower fn) e)

/-! ## Seed cache data model (`server.py` seed management) -/

/-- One record of `safe_seeds_cache` / `cache["files"]`: content hash
(`""` when hashing failed), safety verdict, absolute path, optional
scores, optional error string, classification time. -/
structure SeedEntry where
  hash : String
  is_safe : Bool
  path : String
  scores : Option Scores
  error : Option String
  checked_at : Nat
deriving DecidableEq, Repr

/-- The whole persisted snapshot: `{"files": {...}, "last_scan": ts}`. -/
structure SeedCache where
  files : List (String × SeedEntry)
  last_scan : Option Nat
deriving DecidableEq, Repr

/-- The file system and classifier as seen by the server: the seed
files present in each watched directory (the result of `glob_seeds`),
file existence (`os.path.exists`), file hashing (`compute_file_hash`;
`none` = the read raises), and the classifier verdict per path
(deterministic for an unchanged file). -/
structure SeedFS where
  defaultFiles : List String
  uploadFiles : List String
  fileExists : String → Bool
  hashFile : String → Option String
  classify : String → Verdict

/-- The `(filename, path)` pairs of all seed files on disk:
`glob_seeds(DEFAULT_SEEDS_DIR) + glob_seeds(UPLOADS_DIR)`
(`server.py` 206, 280). -/
def seedsOnDisk (fs : SeedFS) : List (String × String) :=
  fs.defaultFiles.map (fun n => (n, defaultSeedPath n)) ++
    fs.uploadFiles.map (fun n => (n, uploadSeedPath n))

/-- The cache record built for one scanned file (`server.py` 226-247
and 344-365): a hashing failure stores an empty hash, an unsafe
verdict and an error string; otherwise the hash and the classifier's
verdict are stored. -/
def mkCacheEntry (fs : SeedFS) (p : String) (now : Nat) : SeedEntry :=
  match fs.hashFile p with
  | none =>
      { hash := "", is_safe := false, path := p, scores := none,
        error := some "hashing failed", checked_at := now }
  | some h =>
      { hash := h, is_safe := (fs.classify p).is_safe, path := p,
        scores := some (fs.classify p).scores, error := none, checked_at := now }

/-- The `rescan_seeds` (`server.py` 200-254): rebuild the snapshot from
scratch out of every seed file on disk and stamp `last_scan`. The
resulting snapshot is always saved. -/
def rescanSeeds (fs : SeedFS) (now : Nat) : SeedCache :=
  { files := (seedsOnDisk fs).foldl
      (fun acc np => insertEntry acc np.1 (mkCacheEntry fs np.2 now)) [],
    last_scan := some now }

/-- The `current_file_map = {p.name: str(p) for p in all_current_files}`
(`server.py` 281): filename to path, uploads shadowing defaults. -/
def currentFileMap (fs : SeedFS) : List (String × String) :=
  (seedsOnDisk fs).foldl (fun acc np => insertEntry acc np.1 np.2) []

/-- The `missing_files` of the validation loop (`server.py` 294-297):
cached entries whose recorded path no longer exists. -/
def cacheMissing (c : SeedCache) (fs : SeedFS) : List (String × SeedEntry) :=
  c.files.filter (fun ne => !fs.fileExists ne.2.path)

/-- The cached entries whose file still exists (those that survive
the `del cached_files[filename]` pass, `server.py` 314-315). -/
def cacheKept (c : SeedCache) (fs : SeedFS) : List (String × SeedEntry) :=
  c.files.filter (fun ne => fs.fileExists ne.2.path)

/-- The `hash_mismatches` (`server.py` 300-312): among surviving entries,
those with an empty cached hash or whose re-hash differs. -/
def cacheMismatched (c : SeedCache) (fs : SeedFS) : List (String × SeedEntry) :=
  (cacheKept c fs).filter (fun ne =>
    ne.2.hash == "" || fs.hashFile ne.2.path != some ne.2.hash)

/-- The `new_filenames` with their paths (`server.py` 324-330): on-disk
files absent from the cache after removal of missing entries. -/
def cacheNewFiles (c : SeedCache) (fs : SeedFS) : List (String × String) :=
  (currentFileMap fs).filter (fun np => !containsKey (cacheKept c fs) np.1)

/-- Whether the unguarded `compute_file_hash` on line 308 raises for
some cached entry: the file exists, the cached hash is nonempty (so
the hash is recomputed), and hashing fails. -/
def hashRaises (c : SeedCache) (fs : SeedFS) : Bool :=
  c.files.any (fun ne =>
    fs.fileExists ne.2.path && ne.2.hash != "" && (fs.hashFile ne.2.path).isNone)

/-- The `validate_and_update_cache` (`server.py` 257-379).  Returns the
resulting snapshot plus a flag recording whether `save_seeds_cache`
ran; `none` models the uncaught exception raised when an existing
cached file cannot be re-hashed (line 308 is outside any `try`).

Behaviour mirrored from the source: empty cache → full rescan; any
empty cached hash or hash mismatch → full rescan; otherwise missing
entries are dropped, new on-disk files are scanned and inserted, and
the snapshot is saved (with a fresh `last_scan`) only when entries
were removed or added. -/
def validateAndUpdateCache (c : SeedCache) (fs : SeedFS) (now : Nat) :
    Option (SeedCache × Bool) :=
  if c.files.isEmpty then some (rescanSeeds fs now, true)
  else if hashRaises c fs then none
  else if !(cacheMismatched c fs).isEmpty then some (rescanSeeds fs now, true)
  else if (cacheMissing c fs).isEmpty && (cacheNewFiles c fs).isEmpty then
    some (c, false)
  else
    some ({ files := (cacheNewFiles c fs).foldl
              (fun acc np => insertEntry acc np.1 (mkCacheEntry fs np.2 now))
              (cacheKept c fs),
            last_scan := some now }, true)

/-- An entry validated against the current file system: the file
exists, the recorded hash is nonempty, and re-hashing reproduces it. -/
def EntryValid (fs : SeedFS) (kv : String × SeedEntry) : Prop :=
  fs.fileExists kv.2.path = true ∧ kv.2.hash ≠ "" ∧
    fs.hashFile kv.2.path = some kv.2.hash

/-- Well-formedness of the file-system model: listed seed files exist
at their listed paths, and produced hashes are nonempty
(`sha256.hexdigest()` is never the empty string). -/
def FSWellFormed (fs : SeedFS) : Prop :=
  (∀ np ∈ seedsOnDisk fs, fs.fileExists np.2 = true) ∧
    (∀ p h, fs.hashFile p = some h → h ≠ "")

/-- Every existing file can be hashed (no I/O errors). -/
def FSReadable (fs : SeedFS) : Prop :=
  ∀ p, fs.fileExists p = true → (fs.hashFile p).isSome = true

/-! ## Websocket messages and status codes (`server.py` 795-843) -/

/-- Server → client messages relevant to the claims. -/
inductive OutMsg where
  | error (message : String)
  | status (code : String)
  | frame (id : Nat)
deriving DecidableEq, Repr

def statusWaitingForSeed : String := "waiting_for_seed"
def statusInit : String := "init"
def statusLoading : String := "loading"
def statusReady : String := "ready"
def statusReset : String := "reset"
def statusWarmup : String := "warmup"

/-! ## Seed verification at use sites (`server.py` 846-897, 1088-1185) -/

/-- Result of `load_initial_seed`: the engine's seed slot
(`world_engine.seed_frame`) afterwards, the messages sent, the boolean
the function returns, and whether an exception escaped (only possible
from `compute_file_hash`, which is not wrapped in `try` there). -/
structure SeedLoadOut (F : Type) where
  slot : Option F
  sent : List OutMsg
  ok : Bool
  raised : Bool
deriving DecidableEq, Repr

/-- The `load_initial_seed` (`server.py` 846-897): the four-step
verification — presence in the safety cache, `is_safe` verdict, file
existence, hash equality — followed by the engine-side decode; any
failing step sends one specific error and leaves the seed slot
untouched. -/
def loadInitialSeed (cache : List (String × SeedEntry)) (fs : SeedFS)
    (decode : String → Option F) (slot : Option F) (filename : Option String) :
    SeedLoadOut F :=
  match filename with
  | none => ⟨slot, [.error "Missing filename"], false, false⟩
  | some f =>
    if f = "" then ⟨slot, [.error "Missing filename"], false, false⟩
    else
      match lookupEntry cache f with
      | none =>
          ⟨slot, [.error ("Seed " ++ f ++ " not in safety cache")], false, false⟩
      | some e =>
        if e.is_safe = false then
          ⟨slot, [.error ("Seed " ++ f ++ " marked as unsafe")], false, false⟩
        else if fs.fileExists e.path = false then
          ⟨slot, [.error ("Seed file not found: " ++ f)], false, false⟩
        else
          match fs.hashFile e.path with
          | none => ⟨slot, [], false, true⟩
          | some actual =>
            if actual ≠ e.hash then
              ⟨slot,
               [.error "File integrity verification failed - please rescan seeds"],
               false, false⟩
            else
              match decode e.path with
              | none => ⟨slot, [.error "Failed to load seed image"], false, false⟩
              | some fr => ⟨some fr, [], true, false⟩

/-- Result of the `prompt_with_seed` handler: seed slot, session frame
counter and messages sent afterwards, plus a flag for "all checks
passed and the engine was reset onto the new seed". -/
structure PromptSeedOut (F : Type) where
  slot : Option F
  frameCount : Nat
  sent : List OutMsg
  ok : Bool
deriving DecidableEq, Repr

/-- The `prompt_with_seed` branch of the websocket loop (`server.py`
1088-1185): the same four verification steps inline; on success the
seed slot is replaced and `reset_engine()` zeroes the frame counter
and emits a `reset` status; the whole branch is wrapped in
`try/except`, so even a hashing exception only produces an error
message and leaves the session state unchanged. -/
def promptWithSeed (cache : List (String × SeedEntry)) (fs : SeedFS)
    (decode : String → Option F) (slot : Option F) (frameCount : Nat)
    (filename : Option String) : PromptSeedOut F :=
  match filename with
  | none => ⟨slot, frameCount, [.error "Missing filename"], false⟩
  | some f =>
    if f = "" then ⟨slot, frameCount, [.error "Missing filename"], false⟩
    else
      match lookupEntry cache f with
      | none =>
          ⟨slot, frameCount,
           [.error ("Seed " ++ f ++ " not in safety cache")], false⟩
      | some e =>
        if e.is_safe = false then
          ⟨slot, frameCount, [.error ("Seed " ++ f ++ " marked as unsafe")], false⟩
        else if fs.fileExists e.path = false then
          ⟨slot, frameCount, [.error ("Seed file not found: " ++ f)], false⟩
        else
          match fs.hashFile e.path with
          | none =>
              ⟨slot, frameCount, [.error "Failed to set seed: <exception>"], false⟩
          | some actual =>
            if actual ≠ e.hash then
              ⟨slot, frameCount,
               [.error "File integrity verification failed - please rescan seeds"],
               false⟩
            else
              match decode e.path with
              | none =>
                  ⟨slot, frameCount,
                   [.error ("Failed to load seed image: " ++ f)], false⟩
              | some fr => ⟨some fr, 0, [.status statusReset], true⟩

/-- Result of `handle_model_request`: seed slot, frame counter,
messages, whether a seed ended up loaded, and whether an exception
escaped (uncaught hashing error inside `load_initial_seed`). -/
structure ModelSwitchOut (F : Type) where
  slot : Option F
  frameCount : Nat
  sent : List OutMsg
  seedLoaded : Bool
  raised : Bool
deriving DecidableEq, Repr

/-- The `DEFAULT_INITIAL_SEED` (`server.py` 104). -/
def defaultInitialSeed : String := "default.png"

/-- The `handle_model_request` (`server.py` 899-937), as invoked for a
live switch (`set_model` in the running loop passes no seed filename).
After the engine load completes the seed slot is cleared and the frame
counter zeroed, then `load_initial_seed` is attempted with the
requested seed or, absent one, `DEFAULT_INITIAL_SEED`;
`waiting_for_seed` is emitted only when that load fails.  The repeated
5-second `loading` emissions are collapsed into one. -/
def handleModelRequest (cache : List (String × SeedEntry)) (fs : SeedFS)
    (decode : String → Option F) (modelUri : Option String) (slot : Option F)
    (frameCount : Nat) (seedFilename : Option String) : ModelSwitchOut F :=
  let m := strStrip (modelUri.getD "")
  if m = "" then ⟨slot, frameCount, [.error "Missing model id"], false, false⟩
  else
    let effective := match seedFilename with
      | none => defaultInitialSeed
      | some s => if s = "" then defaultInitialSeed else s
    let r := loadInitialSeed cache fs decode none (some effective)
    if r.raised then ⟨r.slot, 0, [.status statusLoading] ++ r.sent, false, true⟩
    else
      ⟨r.slot, 0,
       [.status statusLoading] ++ r.sent ++
         (if r.ok then [] else [.status statusWaitingForSeed]),
       r.ok, false⟩

/-! ## Session frame loop (`server.py` 1045-1259, `engine_manager.py` 26-77) -/

/-- The `N_FRAMES` (`engine_manager.py` 28). -/
def nFrames : Nat := 4096

/-- The `Session.max_frames = N_FRAMES - 2` (`engine_manager.py` 72-77). -/
def maxFrames : Nat := nFrames - 2

/-- Events driving the running session loop, as they affect the frame
counter: a non-paused `control` message reaching frame generation, or
a successful reset (`reset`, `prompt`, or `prompt_with_seed`), which
runs `reset_engine()` and zeroes `session.frame_count`. -/
inductive SEv where
  | control
  | reset
deriving DecidableEq, Repr

/-- Instrumented run of the session loop from frame counter `c`.
Produces, per generated frame, the emitted `frame_id`
(`session.frame_count` after the increment, `server.py` 1213-1221)
paired with a flag: whether any reset — explicit (`reset_engine`) or
the automatic one at the frame ceiling (`server.py` 1200-1202) —
happened since the previous emitted frame (`r` carries that state). -/
def loopTraceAux : Nat → Bool → List SEv → List (Nat × Bool)
  | _, _, [] => []
  | _, _, SEv.reset :: t => loopTraceAux 0 true t
  | c, r, SEv.control :: t =>
      let s := if maxFrames ≤ c then 0 else c
      (s + 1, r || decide (maxFrames ≤ c)) :: loopTraceAux (s + 1) false t

/-- All frame ids a session emits: the initial frame (`frame_id = 0`,
`server.py` 1005-1013) followed by the loop's frames. -/
def sessionEmits (evs : List SEv) : List Nat :=
  0 :: (loopTraceAux 0 false evs).map Prod.fst

/-- Per `control` event: the frame counter on arrival and the counter
at the moment frame generation starts (after the automatic reset at
the ceiling, if any). -/
def genStarts : Nat → List SEv → List (Nat × Nat)
  | _, [] => []
  | _, SEv.reset :: t => genStarts 0 t
  | c, SEv.control :: t =>
      let s := if maxFrames ≤ c then 0 else c
      (c, s) :: genStarts (s + 1) t

/-- Relation between consecutive emitted frames: after a reset the id
restarts at 1, otherwise it increments by exactly 1. -/
def StepOK : (Nat × Bool) → (Nat × Bool) → Prop :=
  fun p q => if q.2 then q.1 = 1 else q.1 = p.1 + 1

/-! ## Control coalescing (`get_latest_control`, `server.py` 1020-1043) -/

/-- Inbound websocket messages, tagged with an opaque payload. -/
inductive InMsg where
  | control (d : Nat)
  | other (d : Nat)
deriving DecidableEq, Repr

/-- Whether `msg.get("type", "control") == "control"`. -/
def isControl : InMsg → Bool
  | .control _ => true
  | .other _ => false

/-- The drain loop of `get_latest_control` over the buffered queue:
a non-control message is returned the moment it is observed (leaving
the rest of the queue buffered); a control message replaces the
remembered latest; queue exhaustion (`TimeoutError`) returns the
remembered latest. -/
def getLatestControlAux : Option InMsg → List InMsg → Option InMsg × List InMsg
  | latest, [] => (latest, [])
  | _, InMsg.control d :: t => getLatestControlAux (some (InMsg.control d)) t
  | _, InMsg.other d :: t => (some (InMsg.other d), t)

/-- The `get_latest_control` (`server.py` 1020-1043): result and remaining
buffered queue. -/
def getLatestControl (q : List InMsg) : Option InMsg × List InMsg :=
  getLatestControlAux none q

/-! ## Cache persistence (`save_seeds_cache`, `server.py` 190-197) -/

/-- Sequential writes of the serialized blob after `open(CACHE_FILE,
"wb")` truncated the file: `failAfter = some k` models the write
failing (process crash or I/O error) after `k` bytes reached the
file; the surrounding `except` swallows the error. -/
def saveStepsAux : List Nat → Option Nat → List Nat → List Nat
  | [], _, file => file
  | _ :: _, some 0, file => file
  | b :: rest, some (k + 1), file => saveStepsAux rest (some k) (file ++ [b])
  | b :: rest, none, file => saveStepsAux rest none (file ++ [b])

/-- The `save_seeds_cache` (`server.py` 190-197) at the file level:
`prev` is the blob on disk before the call, `blob` the pickled new
snapshot; opening with mode `"wb"` truncates before the first write. -/
def saveSeedsCacheFile (prev blob : List Nat) (failAfter : Option Nat) : List Nat :=
  saveStepsAux blob failAfter []

/-! ## Upload and delete endpoints (`server.py` 647-714, 755-787) -/

/-- HTTP outcome of `/seeds/upload`. -/
inductive UploadRes where
  | badRequest (message : String)
  | serverError (message : String)
  | ok (filename : String) (hash : String) (safe : Bool)
deriving DecidableEq, Repr

/-- State after `/seeds/upload`: response, updated cache, and whether
the written file remains on disk (it is unlinked when the safety
check raises). -/
structure UploadOut where
  res : UploadRes
  cache : List (String × SeedEntry)
  fileKept : Bool
deriving DecidableEq, Repr

/-- The `upload_seed` (`server.py` 647-714): extension check, base64
decode (`decodeOk`), write to `UPLOADS_DIR/filename`, hash, safety
check (`none` models the check raising, in which case the file is
deleted); on success the cache record for `filename` is overwritten
with one rooted in the uploads directory. -/
def uploadSeed (cache : List (String × SeedEntry)) (filename : String)
    (decodeOk : Bool) (fileHash : String) (check : Option Verdict) (now : Nat) :
    UploadOut :=
  if isSupportedSeedFilename filename = false then
    ⟨.badRequest "Unsupported format", cache, false⟩
  else if decodeOk = false then
    ⟨.badRequest "Invalid base64 data", cache, false⟩
  else
    match check with
    | none => ⟨.serverError "Safety check failed", cache, false⟩
    | some v =>
        ⟨.ok filename fileHash v.is_safe,
         insertEntry cache filename
           { hash := fileHash, is_safe := v.is_safe,
             path := uploadSeedPath filename, scores := some v.scores,
             error := none, checked_at := now },
         true⟩

/-- HTTP outcome of `DELETE /seeds/{filename}`. -/
inductive DeleteRes where
  | notFound
  | forbidden
  | deleted (filename : String)
deriving DecidableEq, Repr

/-- The `delete_seed` (`server.py` 755-787): 404 if the name is not
cached; 403 unless the recorded path starts with `UPLOADS_DIR`;
otherwise the file is unlinked and the record removed. -/
def deleteSeed (cache : List (String × SeedEntry)) (filename : String) :
    DeleteRes × List (String × SeedEntry) :=
  match lookupEntry cache filename with
  | none => (.notFound, cache)
  | some e =>
      if strStartsWith e.path uploadsDir = false then (.forbidden, cache)
      else (.deleted filename, removeEntry cache filename)

/-! ## Concrete fixtures for counterexamples and witnesses -/

/-- A file system with no seed files at all. -/
def fsEmpty : SeedFS :=
  { defaultFiles := [], uploadFiles := [],
    fileExists := fun _ => false,
    hashFile := fun _ => none,
    classify := fun _ => errorVerdict }

/-- A file system holding the single (safe, readable) default seed
`default.png`. -/
def fsOne : SeedFS :=
  { defaultFiles := ["default.png"], uploadFiles := [],
    fileExists := fun p => p == defaultSeedPath "default.png",
    hashFile := fun p => if p == defaultSeedPath "default.png" then some "h1" else none,
    classify := fun _ => ⟨true, ⟨1, 0, 0, 0⟩⟩ }

/-- The cache entry `fsOne` induces for `default.png`. -/
def entryOne : SeedEntry :=
  { hash := "h1", is_safe := true, path := defaultSeedPath "default.png",
    scores := some ⟨1, 0, 0, 0⟩, error := none, checked_at := 0 }

/-- Cache holding exactly the verified `default.png` record. -/
def cacheOne : List (String × SeedEntry) := [("default.png", entryOne)]

/-! ## Lemmas: safety classifier -/

theorem chunks_flatten {α : Type _} (bs : Nat) (hbs : 0 < bs) :
    ∀ (n : Nat) (l : List α), l.length ≤ n → (chunks bs l).flatten = l := by
  intro n
  induction n with
  | zero =>
    intro l hl
    have : l = [] := List.length_eq_zero.mp (Nat.le_zero.mp hl)
    subst this
    simp [chunks]
  | succ n ih =>
    intro l hl
    match l with
    | [] => simp [chunks]
    | x :: t =>
      obtain ⟨k, rfl⟩ : ∃ k, bs = k + 1 := ⟨bs - 1, (Nat.succ_pred_eq_of_pos hbs).symm⟩
      rw [chunks]
      have hdrop : (t.drop (k + 1 - 1)).length ≤ n := by
        simp only [List.length_drop]
        have := Nat.le_of_succ_le_succ hl
        omega
      rw [List.flatten_cons, ih _ hdrop]
      simp [List.take_succ_cons]

theorem rebuildResults_spec {α : Type _} (f : α → Scores) :
    ∀ images : List (Option α),
      rebuildResults images ((images.filterMap id).map f) =
        images.map (fun o => match o with
          | none => errorVerdict
          | some a => verdictOfScores (f a)) := by
  intro images
  induction images with
  | nil => rfl
  | cons o t ih =>
    match o with
    | none => simp [rebuildResults, ih]
    | some a => simp [List.filterMap_cons, rebuildResults, ih]

/-- With a positive batch size and a pointwise scoring model, the
`try` body of `check_batch` classifies each input slot from that slot
alone. -/
theorem checkBatchTry_eq_map {α : Type _} (f : α → Scores) (bs : Nat)
    (hbs : 0 < bs) (images : List (Option α)) :
    checkBatchTry f bs images =
      images.map (fun o => match o with
        | none => errorVerdict
        | some a => verdictOfScores (f a)) := by
  unfold checkBatchTry
  have hjoin : ((chunks bs (images.filterMap id)).map (fun b => b.map f)).flatten
      = (images.filterMap id).map f := by
    rw [← List.map_flatten, chunks_flatten bs hbs (images.filterMap id).length _ le_rfl]
  rw [hjoin, rebuildResults_spec]

/-- Full characterisation of the non-crashing `check_batch`. -/
theorem checkBatch_false_eq_map {α : Type _} (f : α → Scores) (bs : Nat)
    (hbs : 0 < bs) (images : List (Option α)) :
    checkBatch f bs false images =
      images.map (fun o => match o with
        | none => errorVerdict
        | some a => verdictOfScores (f a)) := by
  match images with
  | [] => rfl
  | o :: t =>
    rw [checkBatch]
    simp only [List.isEmpty_cons, Bool.false_eq_true, if_false]
    exact checkBatchTry_eq_map f bs hbs (o :: t)

/-- C4: for every image the classifier successfully loads and scores,
the verdict is exactly `is_safe = (scores.low < 0.5)`, both in
`check_image` and (through the batching and realignment logic) at
every successfully loaded position of `check_batch`; no other
threshold is applied. -/
theorem c4_verdict_threshold {α : Type} (s : Scores) (f : α → Scores) (bs : Nat)
    (images : List (Option α)) (i : Nat) (a : α)
    (hbs : 0 < bs) (hi : images[i]? = some (some a)) :
    ((checkImage (some s)).is_safe = true ↔ s.low < 1/2) ∧
    (checkImage (some s)).scores = s ∧
    ∃ v, (checkBatch f bs false images)[i]? = some v ∧
      (v.is_safe = true ↔ (f a).low < 1/2) ∧ v.scores = f a := by
  refine ⟨by simp [checkImage, verdictOfScores], rfl, ?_⟩
  refine ⟨verdictOfScores (f a), ?_, by simp [verdictOfScores], rfl⟩
  rw [checkBatch_false_eq_map f bs hbs, List.getElem?_map, hi]
  rfl

/-- Witness for C4 at a concrete safe score vector and a concrete
one-image batch. -/
theorem c4_verdict_threshold_witness :
    ((checkImage (some ⟨9/10, 1/4, 1/8, 1/16⟩)).is_safe = true ↔ (1:ℚ)/4 < 1/2) ∧
    (checkImage (some ⟨9/10, 1/4, 1/8, 1/16⟩)).scores = ⟨9/10, 1/4, 1/8, 1/16⟩ ∧
    ∃ v, (checkBatch (fun _ : Nat => (⟨0, 3/4, 1/2, 1/4⟩ : Scores)) 8 false
        [some 7])[0]? = some v ∧
      (v.is_safe = true ↔ ((fun _ : Nat => (⟨0, 3/4, 1/2, 1/4⟩ : Scores)) 7).low < 1/2) ∧
      v.scores = (fun _ : Nat => (⟨0, 3/4, 1/2, 1/4⟩ : Scores)) 7 :=
  c4_verdict_threshold ⟨9/10, 1/4, 1/8, 1/16⟩ (fun _ : Nat => ⟨0, 3/4, 1/2, 1/4⟩)
    8 [some 7] 0 7 (by decide) rfl

/-- C5: `check_batch` returns one verdict per input, aligned
index-by-index; a failed load yields the unsafe profile
`{neutral 0, low 1, medium 0, high 0}` while loaded images are still
classified; an exception escaping the classifier itself fails the
whole batch, reported as every input marked unsafe. -/
theorem c5_batch_alignment {α : Type} (f : α → Scores) (bs : Nat) (crash : Bool)
    (images : List (Option α)) (hbs : 0 < bs) :
    (checkBatch f bs crash images).length = images.length ∧
    (crash = true → checkBatch f bs crash images =
      images.map (fun _ => errorVerdict)) ∧
    (crash = false → ∀ i : Nat,
      (images[i]? = some none →
        (checkBatch f bs crash images)[i]? = some errorVerdict) ∧
      (∀ a, images[i]? = some (some a) →
        (checkBatch f bs crash images)[i]? = some (verdictOfScores (f a)))) := by
  refine ⟨?_, ?_, ?_⟩
  · cases crash with
    | true =>
      match images with
      | [] => rfl
      | o :: t => rw [checkBatch]; simp
    | false => rw [checkBatch_false_eq_map f bs hbs]; simp
  · intro hc
    subst hc
    match images with
    | [] => rfl
    | o :: t => rw [checkBatch]; simp
  · intro hc i
    subst hc
    rw [checkBatch_false_eq_map f bs hbs]
    constructor
    · intro hi
      rw [List.getElem?_map, hi]
      rfl
    · intro a hi
      rw [List.getElem?_map, hi]
      rfl

/-- Witness for C5 on a concrete three-image batch (one failed load),
and on the same batch with a crashing classifier. -/
theorem c5_batch_alignment_witness :
    (checkBatch (fun n : Nat => (⟨1, n/8, 0, 0⟩ : Scores)) 2 false
        [some 1, none, some 6]).length = 3 ∧
    ((checkBatch (fun n : Nat => (⟨1, n/8, 0, 0⟩ : Scores)) 2 false
        [some 1, none, some 6])[1]? = some errorVerdict) ∧
    checkBatch (fun n : Nat => (⟨1, n/8, 0, 0⟩ : Scores)) 2 true
        [some 1, none, some 6] = [errorVerdict, errorVerdict, errorVerdict] := by
  have h1 := c5_batch_alignment (fun n : Nat => (⟨1, n/8, 0, 0⟩ : Scores)) 2 false
    [some 1, none, some 6] (by decide)
  have h2 := c5_batch_alignment (fun n : Nat => (⟨1, n/8, 0, 0⟩ : Scores)) 2 true
    [some 1, none, some 6] (by decide)
  exact ⟨h1.1, ((h1.2.2 rfl 1).1 rfl), h2.2.1 rfl⟩

/-! ## Lemmas: association lists -/

theorem lookupEntry_insertEntry_self {α : Type _} :
    ∀ (l : List (String × α)) (k : String) (v : α),
      lookupEntry (insertEntry l k v) k = some v := by
  intro l
  induction l with
  | nil => intro k v; simp [insertEntry, lookupEntry]
  | cons kv t ih =>
    intro k v
    obtain ⟨k', v'⟩ := kv
    by_cases h : k' = k
    · simp [insertEntry, h, lookupEntry]
    · rw [insertEntry, if_neg h, lookupEntry, if_neg h, ih]

theorem lookupEntry_insertEntry_ne {α : Type _} {n k : String} (hne : n ≠ k) :
    ∀ (l : List (String × α)) (v : α),
      lookupEntry (insertEntry l k v) n = lookupEntry l n := by
  intro l
  induction l with
  | nil =>
    intro v
    simp [insertEntry, lookupEntry, Ne.symm hne]
  | cons kv t ih =>
    intro v
    obtain ⟨k', v'⟩ := kv
    by_cases h : k' = k
    · subst h
      rw [insertEntry, if_pos rfl, lookupEntry, lookupEntry,
        if_neg (fun h => hne h.symm), if_neg (fun h => hne h.symm)]
    · rw [insertEntry, if_neg h, lookupEntry, lookupEntry]
      by_cases h2 : k' = n
      · simp [h2]
      · rw [if_neg h2, if_neg h2, ih]

theorem mem_insertEntry {α : Type _} :
    ∀ {l : List (String × α)} {k : String} {v : α} {kv : String × α},
      kv ∈ insertEntry l k v → kv ∈ l ∨ kv = (k, v) := by
  intro l
  induction l with
  | nil =>
    intro k v kv h
    simp [insertEntry] at h
    exact Or.inr h
  | cons p t ih =>
    intro k v kv h
    obtain ⟨k', v'⟩ := p
    rw [insertEntry] at h
    by_cases hk : k' = k
    · rw [if_pos hk] at h
      rcases List.mem_cons.mp h with h1 | h1
      · exact Or.inr h1
      · exact Or.inl (List.mem_cons_of_mem _ h1)
    · rw [if_neg hk] at h
      rcases List.mem_cons.mp h with h1 | h1
      · exact Or.inl (h1 ▸ List.mem_cons_self _ _)
      · rcases ih h1 with h2 | h2
        · exact Or.inl (List.mem_cons_of_mem _ h2)
        · exact Or.inr h2

theorem lookupEntry_mem {α : Type _} :
    ∀ {l : List (String × α)} {k : String} {v : α},
      lookupEntry l k = some v → (k, v) ∈ l := by
  intro l
  induction l with
  | nil => intro k v h; simp [lookupEntry] at h
  | cons p t ih =>
    intro k v h
    obtain ⟨k', v'⟩ := p
    rw [lookupEntry] at h
    by_cases hk : k' = k
    · rw [if_pos hk] at h
      cases h
      subst hk
      exact List.mem_cons_self _ _
    · rw [if_neg hk] at h
      exact List.mem_cons_of_mem _ (ih h)

theorem containsKey_of_mem {α : Type _} {l : List (String × α)} {k : String}
    {v : α} (h : (k, v) ∈ l) : containsKey l k = true := by
  induction l with
  | nil => simp at h
  | cons p t ih =>
    obtain ⟨k', v'⟩ := p
    unfold containsKey lookupEntry
    by_cases hk : k' = k
    · simp [hk]
    · rcases List.mem_cons.mp h with h1 | h1
      · exact absurd (congrArg Prod.fst h1).symm hk
      · rw [if_neg hk]
        exact ih h1

theorem containsKey_insertEntry_self {α : Type _} (l : List (String × α))
    (k : String) (v : α) : containsKey (insertEntry l k v) k = true := by
  rw [containsKey, lookupEntry_insertEntry_self]
  rfl

theorem containsKey_insertEntry_of {α : Type _} {l : List (String × α)}
    {n k : String} (v : α) (h : containsKey l n = true) :
    containsKey (insertEntry l k v) n = true := by
  by_cases hk : n = k
  · subst hk; exact containsKey_insertEntry_self l n v
  · rw [containsKey, lookupEntry_insertEntry_ne hk]
    exact h

theorem mem_foldl_insertEntry {β γ : Type _} (key : γ → String) (val : γ → β) :
    ∀ (ps : List γ) (acc : List (String × β)) (kv : String × β),
      kv ∈ ps.foldl (fun a s => insertEntry a (key s) (val s)) acc →
      kv ∈ acc ∨ ∃ s ∈ ps, kv = (key s, val s) := by
  intro ps
  induction ps with
  | nil => intro acc kv h; exact Or.inl h
  | cons s t ih =>
    intro acc kv h
    rw [List.foldl_cons] at h
    rcases ih _ kv h with h1 | h1
    · rcases mem_insertEntry h1 with h2 | h2
      · exact Or.inl h2
      · exact Or.inr ⟨s, List.mem_cons_self _ _, h2⟩
    · obtain ⟨s', hs', h2⟩ := h1
      exact Or.inr ⟨s', List.mem_cons_of_mem _ hs', h2⟩

theorem containsKey_foldl_insertEntry {β γ : Type _} (key : γ → String)
    (val : γ → β) :
    ∀ (ps : List γ) (acc : List (String × β)) (n : String),
      (containsKey acc n = true ∨ ∃ s ∈ ps, key s = n) →
      containsKey (ps.foldl (fun a s => insertEntry a (key s) (val s)) acc) n
        = true := by
  intro ps
  induction ps with
  | nil =>
    intro acc n h
    rcases h with h | ⟨s, hs, _⟩
    · exact h
    · simp at hs
  | cons s t ih =>
    intro acc n h
    rw [List.foldl_cons]
    rcases h with h | ⟨s', hs', hkey⟩
    · exact ih _ n (Or.inl (containsKey_insertEntry_of _ h))
    · rcases List.mem_cons.mp hs' with h1 | h1
      · subst h1
        exact ih _ n (Or.inl (hkey ▸ containsKey_insertEntry_self _ _ _))
      · exact ih _ n (Or.inr ⟨s', h1, hkey⟩)

/-! ## Lemmas: seed verification at use sites (claim C1) -/

theorem loadInitialSeed_spec {F : Type} (cache : List (String × SeedEntry))
    (fs : SeedFS) (decode : String → Option F) (slot : Option F)
    (filename : Option String) :
    ((loadInitialSeed cache fs decode slot filename).ok = true →
      ∃ f e fr, filename = some f ∧ lookupEntry cache f = some e ∧
        e.is_safe = true ∧ fs.fileExists e.path = true ∧
        fs.hashFile e.path = some e.hash ∧ decode e.path = some fr ∧
        (loadInitialSeed cache fs decode slot filename).slot = some fr ∧
        (loadInitialSeed cache fs decode slot filename).sent = []) ∧
    ((loadInitialSeed cache fs decode slot filename).ok = false →
      (loadInitialSeed cache fs decode slot filename).slot = slot) ∧
    ((loadInitialSeed cache fs decode slot filename).raised = true →
      ∃ f e, filename = some f ∧ lookupEntry cache f = some e ∧
        fs.fileExists e.path = true ∧ fs.hashFile e.path = none) ∧
    ((loadInitialSeed cache fs decode slot filename).ok = false →
      (loadInitialSeed cache fs decode slot filename).raised = false →
      ∃ m, (loadInitialSeed cache fs decode slot filename).sent
        = [OutMsg.error m]) := by
  cases filename with
  | none => simp [loadInitialSeed]
  | some f =>
    by_cases hf : f = ""
    · simp [loadInitialSeed, hf]
    · cases hlk : lookupEntry cache f with
      | none => simp [loadInitialSeed, hf, hlk]
      | some e =>
        cases hsafe : e.is_safe with
        | false => simp [loadInitialSeed, hf, hlk, hsafe]
        | true =>
          cases hex : fs.fileExists e.path with
          | false => simp [loadInitialSeed, hf, hlk, hsafe, hex]
          | true =>
            cases hhash : fs.hashFile e.path with
            | none =>
              simp [loadInitialSeed, hf, hlk, hsafe, hex, hhash]
            | some actual =>
              by_cases ha : actual = e.hash
              · subst ha
                cases hdec : decode e.path with
                | none => simp [loadInitialSeed, hf, hlk, hsafe, hex, hhash, hdec]
                | some fr =>
                  simp [loadInitialSeed, hf, hlk, hsafe, hex, hhash, hdec]
              · simp [loadInitialSeed, hf, hlk, hsafe, hex, hhash, ha]

theorem promptWithSeed_spec {F : Type} (cache : List (String × SeedEntry))
    (fs : SeedFS) (decode : String → Option F) (slot : Option F) (fc : Nat)
    (filename : Option String) :
    ((promptWithSeed cache fs decode slot fc filename).ok = true →
      ∃ f e fr, filename = some f ∧ lookupEntry cache f = some e ∧
        e.is_safe = true ∧ fs.fileExists e.path = true ∧
        fs.hashFile e.path = some e.hash ∧ decode e.path = some fr ∧
        (promptWithSeed cache fs decode slot fc filename).slot = some fr ∧
        (promptWithSeed cache fs decode slot fc filename).frameCount = 0 ∧
        (promptWithSeed cache fs decode slot fc filename).sent
          = [OutMsg.status statusReset]) ∧
    ((promptWithSeed cache fs decode slot fc filename).ok = false →
      (promptWithSeed cache fs decode slot fc filename).slot = slot ∧
      (promptWithSeed cache fs decode slot fc filename).frameCount = fc ∧
      ∃ m, (promptWithSeed cache fs decode slot fc filename).sent
        = [OutMsg.error m]) := by
  cases filename with
  | none => simp [promptWithSeed]
  | some f =>
    by_cases hf : f = ""
    · simp [promptWithSeed, hf]
    · cases hlk : lookupEntry cache f with
      | none => simp [promptWithSeed, hf, hlk]
      | some e =>
        cases hsafe : e.is_safe with
        | false => simp [promptWithSeed, hf, hlk, hsafe]
        | true =>
          cases hex : fs.fileExists e.path with
          | false => simp [promptWithSeed, hf, hlk, hsafe, hex]
          | true =>
            cases hhash : fs.hashFile e.path with
            | none =>
              simp [promptWithSeed, hf, hlk, hsafe, hex, hhash]
            | some actual =>
              by_cases ha : actual = e.hash
              · subst ha
                cases hdec : decode e.path with
                | none => simp [promptWithSeed, hf, hlk, hsafe, hex, hhash, hdec]
                | some fr =>
                  simp [promptWithSeed, hf, hlk, hsafe, hex, hhash, hdec]
              · simp [promptWithSeed, hf, hlk, hsafe, hex, hhash, ha]

/-- On a file system whose existing files are all readable, the
unguarded `compute_file_hash` call inside `load_initial_seed` cannot
raise. -/
theorem loadInitialSeed_not_raised {F : Type} (cache : List (String × SeedEntry))
    (fs : SeedFS) (decode : String → Option F) (slot : Option F)
    (filename : Option String)
    (hread : ∀ p, fs.fileExists p = true → (fs.hashFile p).isSome = true) :
    (loadInitialSeed cache fs decode slot filename).raised = false := by
  cases hr : (loadInitialSeed cache fs decode slot filename).raised with
  | false => rfl
  | true =>
    obtain ⟨f, e, _, _, hex, hnone⟩ :=
      (loadInitialSeed_spec cache fs decode slot filename).2.2.1 hr
    have := hread e.path hex
    rw [hnone] at this
    simp at this

/-- C1: at every seed use site — the initial handshake and `set_model`
path (`load_initial_seed`) and the mid-session `prompt_with_seed`
branch — the seed reaches the engine only after the four checks
(cached, safe verdict, file present, on-disk SHA-256 equal to the
cached hash) all pass; any failure emits exactly one specific error
message, loads nothing, and leaves the seed slot and frame counter in
their current state. -/
theorem c1_seed_verification {F : Type} (cache : List (String × SeedEntry))
    (fs : SeedFS) (decode : String → Option F) (slot : Option F) (fc : Nat)
    (filename : Option String)
    (hread : ∀ p, fs.fileExists p = true → (fs.hashFile p).isSome = true) :
    ((loadInitialSeed cache fs decode slot filename).ok = true →
      ∃ f e, filename = some f ∧ lookupEntry cache f = some e ∧
        e.is_safe = true ∧ fs.fileExists e.path = true ∧
        fs.hashFile e.path = some e.hash) ∧
    ((loadInitialSeed cache fs decode slot filename).ok = false →
      (loadInitialSeed cache fs decode slot filename).slot = slot ∧
      ∃ m, (loadInitialSeed cache fs decode slot filename).sent
        = [OutMsg.error m]) ∧
    ((promptWithSeed cache fs decode slot fc filename).ok = true →
      ∃ f e, filename = some f ∧ lookupEntry cache f = some e ∧
        e.is_safe = true ∧ fs.fileExists e.path = true ∧
        fs.hashFile e.path = some e.hash) ∧
    ((promptWithSeed cache fs decode slot fc filename).ok = false →
      (promptWithSeed cache fs decode slot fc filename).slot = slot ∧
      (promptWithSeed cache fs decode slot fc filename).frameCount = fc ∧
      ∃ m, (promptWithSeed cache fs decode slot fc filename).sent
        = [OutMsg.error m]) := by
  refine ⟨?_, ?_, ?_, ?_⟩
  · intro hok
    obtain ⟨f, e, fr, h1, h2, h3, h4, h5, _⟩ :=
      (loadInitialSeed_spec cache fs decode slot filename).1 hok
    exact ⟨f, e, h1, h2, h3, h4, h5⟩
  · intro hok
    refine ⟨(loadInitialSeed_spec cache fs decode slot filename).2.1 hok, ?_⟩
    exact (loadInitialSeed_spec cache fs decode slot filename).2.2.2 hok
      (loadInitialSeed_not_raised cache fs decode slot filename hread)
  · intro hok
    obtain ⟨f, e, fr, h1, h2, h3, h4, h5, _⟩ :=
      (promptWithSeed_spec cache fs decode slot fc filename).1 hok
    exact ⟨f, e, h1, h2, h3, h4, h5⟩
  · exact (promptWithSeed_spec cache fs decode slot fc filename).2

/-- Witness for C1: the verified default seed of `fsOne` passes all
four checks at both use sites, and an unknown filename at the
`prompt_with_seed` site fails with one specific error and unchanged
session state. -/
theorem c1_seed_verification_witness :
    (∃ f e, (some "default.png" : Option String) = some f ∧
      lookupEntry cacheOne f = some e ∧ e.is_safe = true ∧
      fsOne.fileExists e.path = true ∧ fsOne.hashFile e.path = some e.hash) ∧
    ((promptWithSeed cacheOne fsOne (fun p => some p) (some "old") 7
        (some "ghost.png")).slot = some "old" ∧
      (promptWithSeed cacheOne fsOne (fun p => some p) (some "old") 7
        (some "ghost.png")).frameCount = 7 ∧
      ∃ m, (promptWithSeed cacheOne fsOne (fun p => some p) (some "old") 7
        (some "ghost.png")).sent = [OutMsg.error m]) := by
  have hread : ∀ p, fsOne.fileExists p = true → (fsOne.hashFile p).isSome = true := by
    intro p hp
    simp only [fsOne] at hp ⊢
    have : p = defaultSeedPath "default.png" := eq_of_beq hp
    subst this
    simp
  constructor
  · exact (c1_seed_verification cacheOne fsOne (fun p => some p) none 0
      (some "default.png") hread).1 (by decide)
  · exact (c1_seed_verification cacheOne fsOne (fun p => some p) (some "old") 7
      (some "ghost.png") hread).2.2.2 (by decide)

/-! ## Lemmas: session frame loop (claims C2 and C8) -/

theorem loopTraceAux_chain :
    ∀ t : List SEv,
      (∀ (c : Nat) (b : Bool), List.Chain StepOK (c, b) (loopTraceAux c false t)) ∧
      (∀ p : Nat × Bool, List.Chain StepOK p (loopTraceAux 0 true t)) := by
  intro t
  induction t with
  | nil => exact ⟨fun _ _ => List.Chain.nil, fun _ => List.Chain.nil⟩
  | cons e t ih =>
    cases e with
    | reset =>
      exact ⟨fun c b => ih.2 _, fun p => ih.2 _⟩
    | control =>
      constructor
      · intro c b
        rw [loopTraceAux]
        by_cases hc : maxFrames ≤ c
        · refine List.Chain.cons ?_ (by simpa [hc] using ih.1 (0 + 1) true)
          simp [StepOK, hc]
        · refine List.Chain.cons ?_ (by simpa [hc] using ih.1 (c + 1) false)
          simp [StepOK, hc]
      · intro p
        rw [loopTraceAux]
        have hc : ¬ maxFrames ≤ 0 := by simp [maxFrames, nFrames]
        refine List.Chain.cons ?_ (by simpa [hc] using ih.1 (0 + 1) true)
        simp [StepOK, hc]

/-- C2 (counterexample): frame ids are not strictly increasing over
the whole life of a session — a reset (here between two control
frames) restarts the ids, so id 1 is emitted after id 2. -/
theorem c2_frame_ids_not_monotone :
    sessionEmits [SEv.control, SEv.control, SEv.reset, SEv.control]
      = [0, 1, 2, 1] ∧
    ¬ List.Pairwise (· < ·)
      (sessionEmits [SEv.control, SEv.control, SEv.reset, SEv.control]) := by
  constructor
  · rfl
  · intro h
    rw [show sessionEmits [SEv.control, SEv.control, SEv.reset, SEv.control]
      = [0, 1, 2, 1] from rfl] at h
    have := (List.pairwise_cons.mp ((List.pairwise_cons.mp h).2)).1
    exact absurd (this 1 (by simp)) (by omega)

/-- C2 (amended): frame ids are strictly increasing only between
resets: each emitted frame id is exactly the predecessor plus one,
except that the first frame after a reset — explicit
(`reset`/`prompt`/`prompt_with_seed`) or the automatic reset at the
frame ceiling — has id 1.  (Strict increase between consecutive
resets follows, since `b = a + 1 > a` when no reset intervened.) -/
theorem c2_frame_ids_between_resets (evs : List SEv) :
    sessionEmits evs = ((0, false) :: loopTraceAux 0 false evs).map Prod.fst ∧
    List.Chain StepOK (0, false) (loopTraceAux 0 false evs) :=
  ⟨rfl, (loopTraceAux_chain evs).1 0 false⟩

theorem genStarts_bounds :
    ∀ (t : List SEv) (c : Nat) (p : Nat × Nat), p ∈ genStarts c t →
      p.2 < nFrames - 1 ∧ (maxFrames ≤ p.1 → p.2 = 0) := by
  intro t
  induction t with
  | nil => intro c p hp; simp [genStarts] at hp
  | cons e t ih =>
    cases e with
    | reset =>
      intro c p hp
      rw [genStarts] at hp
      exact ih 0 p hp
    | control =>
      intro c p hp
      rw [genStarts] at hp
      rcases List.mem_cons.mp hp with h | h
      · subst h
        constructor
        · by_cases hc : maxFrames ≤ c
          · rw [if_pos hc]
            simp [nFrames]
          · rw [if_neg hc]
            simp only [maxFrames, nFrames] at hc ⊢
            omega
        · intro hge
          rw [if_pos hge]
      · exact ih _ p h

/-- C8: at the moment a control-driven frame generation starts, the
session's frame counter is below `N_FRAMES - 1`; whenever the counter
has reached `N_FRAMES - 2` (= `Session.max_frames`), the automatic
reset runs first, so generation starts from a zeroed counter. -/
theorem c8_frame_ceiling (evs : List SEv) (p : Nat × Nat)
    (hp : p ∈ genStarts 0 evs) :
    p.2 < nFrames - 1 ∧ (p.1 = maxFrames → p.2 = 0) :=
  ⟨(genStarts_bounds evs 0 p hp).1,
   fun h => (genStarts_bounds evs 0 p hp).2 (le_of_eq h.symm)⟩

/-- Witness for C8 on a two-control trace. -/
theorem c8_frame_ceiling_witness :
    ((1, 1) : Nat × Nat).2 < nFrames - 1 ∧
    (((1, 1) : Nat × Nat).1 = maxFrames → ((1, 1) : Nat × Nat).2 = 0) :=
  c8_frame_ceiling [SEv.control, SEv.control] (1, 1) (by decide)

/-! ## Lemmas: control coalescing (claim C3) -/

theorem getLatestControlAux_all_controls :
    ∀ (q : List InMsg), q ≠ [] → (∀ m ∈ q, isControl m = true) →
      ∀ latest : Option InMsg, getLatestControlAux latest q = (q.getLast?, []) := by
  intro q
  induction q with
  | nil => intro h; exact absurd rfl h
  | cons x t ih =>
    intro _ hall latest
    cases x with
    | control d =>
      cases t with
      | nil => rfl
      | cons y t' =>
        rw [getLatestControlAux,
          ih (by simp) (fun m hm => hall m (List.mem_cons_of_mem _ hm)) _,
          List.getLast?_cons_cons]
    | other d =>
      have := hall _ (List.mem_cons_self _ _)
      simp [isControl] at this

theorem getLatestControlAux_control_return :
    ∀ (q : List InMsg) (latest : Option InMsg) (m : InMsg) (rest : List InMsg),
      getLatestControlAux latest q = (some m, rest) → isControl m = true →
      rest = [] ∧ ((q = [] ∧ latest = some m) ∨ q.getLast? = some m) := by
  intro q
  induction q with
  | nil =>
    intro latest m rest h hm
    rw [getLatestControlAux] at h
    cases h
    exact ⟨rfl, Or.inl ⟨rfl, rfl⟩⟩
  | cons x t ih =>
    intro latest m rest h hm
    cases x with
    | control d =>
      rw [getLatestControlAux] at h
      obtain ⟨hrest, hcase⟩ := ih _ m rest h hm
      refine ⟨hrest, Or.inr ?_⟩
      rcases hcase with ⟨ht, hl⟩ | hl
      · subst ht
        cases hl
        rfl
      · cases t with
        | nil => simp [List.getLast?] at hl
        | cons y t' => rw [List.getLast?_cons_cons]; exact hl
    | other d =>
      rw [getLatestControlAux] at h
      cases h
      simp [isControl] at hm

theorem getLatestControlAux_first_other :
    ∀ (pre : List InMsg) (d : Nat) (t : List InMsg) (latest : Option InMsg),
      (∀ m ∈ pre, isControl m = true) →
      getLatestControlAux latest (pre ++ InMsg.other d :: t)
        = (some (InMsg.other d), t) := by
  intro pre
  induction pre with
  | nil => intro d t latest _; rfl
  | cons x p ih =>
    intro d t latest hall
    cases x with
    | control c =>
      rw [List.cons_append, getLatestControlAux]
      exact ih d t _ (fun m hm => hall m (List.mem_cons_of_mem _ hm))
    | other c =>
      have := hall _ (List.mem_cons_self _ _)
      simp [isControl] at this

/-- C3: when the session drains its buffered messages between frames,
(i) a burst of buffered control messages is coalesced — the drain
returns only the newest one, the queue is left empty, and processing
it bumps the emitted frame id by exactly 1; (ii) whenever the drain
returns a control message, that message is the newest buffered one
and every older control is discarded; (iii) a non-control message is
returned the moment it is observed, in arrival order, leaving the
rest of the queue buffered. -/
theorem c3_control_coalescing (q : List InMsg) (c : Nat) :
    (q ≠ [] → (∀ m ∈ q, isControl m = true) →
      getLatestControl q = (q.getLast?, []) ∧
      (c < maxFrames →
        (loopTraceAux c false [SEv.control]).map Prod.fst = [c + 1])) ∧
    (∀ m rest, getLatestControl q = (some m, rest) → isControl m = true →
      q.getLast? = some m ∧ rest = []) ∧
    (∀ (pre t : List InMsg) (d : Nat), (∀ m ∈ pre, isControl m = true) →
      q = pre ++ InMsg.other d :: t →
      getLatestControl q = (some (InMsg.other d), t)) := by
  refine ⟨?_, ?_, ?_⟩
  · intro hne hall
    refine ⟨getLatestControlAux_all_controls q hne hall none, ?_⟩
    intro hc
    have : ¬ maxFrames ≤ c := not_le.mpr hc
    simp [loopTraceAux, this]
  · intro m rest h hm
    obtain ⟨hrest, hcase⟩ := getLatestControlAux_control_return q none m rest h hm
    rcases hcase with ⟨_, hl⟩ | hl
    · cases hl
    · exact ⟨hl, hrest⟩
  · intro pre t d hall hq
    subst hq
    exact getLatestControlAux_first_other pre d t none hall

/-- Witness for C3: a three-control burst is coalesced to its last
message with the queue drained, and a control step from counter 5
emits frame id 6. -/
theorem c3_control_coalescing_witness :
    getLatestControl [InMsg.control 1, InMsg.control 2, InMsg.control 3]
      = (some (InMsg.control 3), []) ∧
    (loopTraceAux 5 false [SEv.control]).map Prod.fst = [6] := by
  have h := (c3_control_coalescing
    [InMsg.control 1, InMsg.control 2, InMsg.control 3] 5).1
    (by decide) (by decide)
  exact ⟨h.1.trans (by decide), h.2 (by decide)⟩

/-! ## Lemmas: cache persistence (claim C6) -/

theorem saveStepsAux_none :
    ∀ (blob file : List Nat), saveStepsAux blob none file = file ++ blob := by
  intro blob
  induction blob with
  | nil => intro file; simp [saveStepsAux]
  | cons b rest ih =>
    intro file
    rw [saveStepsAux, ih]
    simp

theorem saveStepsAux_take :
    ∀ (blob : List Nat) (fa : Option Nat) (file : List Nat),
      ∃ k, saveStepsAux blob fa file = file ++ blob.take k := by
  intro blob
  induction blob with
  | nil => intro fa file; exact ⟨0, by simp [saveStepsAux]⟩
  | cons b rest ih =>
    intro fa file
    match fa with
    | none =>
      exact ⟨rest.length + 1, by rw [saveStepsAux_none]; simp⟩
    | some 0 =>
      exact ⟨0, by simp [saveStepsAux]⟩
    | some (k + 1) =>
      obtain ⟨k', hk'⟩ := ih (some k) (file ++ [b])
      exact ⟨k' + 1, by rw [saveStepsAux, hk']; simp⟩

/-- C6 (counterexample): `save_seeds_cache` is not an atomic replace.
Writing blob `[2, 3]` over previous blob `[1]` and failing after one
byte leaves the file holding `[2]` — neither the new snapshot nor the
old one. -/
theorem c6_save_not_atomic :
    ¬ (saveSeedsCacheFile [1] [2, 3] (some 1) = [2, 3] ∨
       saveSeedsCacheFile [1] [2, 3] (some 1) = [1]) := by
  decide

/-- C6 (amended): `save_seeds_cache` opens the cache file with mode
`"wb"`, which truncates it before writing, then writes the new blob
sequentially with any error swallowed by the `except` handler.  Hence
after `save` the file holds the complete new blob on success and some
prefix of the new blob on failure; the previous blob is destroyed at
the start and never recoverable (the result is independent of it). -/
theorem c6_save_prefix_semantics (prev prev2 blob : List Nat)
    (failAfter : Option Nat) :
    saveSeedsCacheFile prev blob none = blob ∧
    (∃ k, saveSeedsCacheFile prev blob failAfter = blob.take k) ∧
    saveSeedsCacheFile prev blob failAfter
      = saveSeedsCacheFile prev2 blob failAfter := by
  refine ⟨by simpa using saveStepsAux_none blob [], ?_, rfl⟩
  obtain ⟨k, hk⟩ := saveStepsAux_take blob failAfter []
  exact ⟨k, by simpa using hk⟩

/-! ## Lemmas: upload shadows defaults, delete checks only the path
(claim C10) -/

theorem listIsPrefixOf_append :
    ∀ (l t : List Char), l.isPrefixOf (l ++ t) = true := by
  intro l
  induction l with
  | nil =>
    intro t
    cases t <;> rfl
  | cons c l ih =>
    intro t
    simp [List.isPrefixOf, ih t]

theorem strStartsWith_append (a b : String) :
    strStartsWith (a ++ b) a = true := by
  unfold strStartsWith
  rw [String.data_append]
  exact listIsPrefixOf_append a.data b.data

theorem uploadSeedPath_startsWith (fn : String) :
    strStartsWith (uploadSeedPath fn) uploadsDir = true := by
  unfold uploadSeedPath
  rw [String.append_assoc]
  exact strStartsWith_append uploadsDir ("/" ++ fn)

/-- C10: cache records are keyed by bare filename with
last-writer-wins.  If `fn` is cached with a path outside the uploads
directory (a default seed) and an upload named `fn` succeeds, the
cache record for `fn` now points under `uploads/` with the uploaded
file's hash and verdict — the default seed's record is unreachable
under that name — and `DELETE /seeds/{fn}`, which only checks that
the recorded path starts with the uploads directory, now accepts the
deletion. -/
theorem c10_upload_shadows_default (cache : List (String × SeedEntry))
    (fn : String) (e : SeedEntry) (fileHash : String) (v : Verdict) (now : Nat)
    (hlk : lookupEntry cache fn = some e)
    (hdef : strStartsWith e.path uploadsDir = false)
    (hext : isSupportedSeedFilename fn = true) :
    (uploadSeed cache fn true fileHash (some v) now).res
      = UploadRes.ok fn fileHash v.is_safe ∧
    (∃ e', lookupEntry (uploadSeed cache fn true fileHash (some v) now).cache fn
        = some e' ∧
      e'.path = uploadSeedPath fn ∧ e'.hash = fileHash ∧
      e'.is_safe = v.is_safe ∧ e' ≠ e) ∧
    (deleteSeed (uploadSeed cache fn true fileHash (some v) now).cache fn).1
      = DeleteRes.deleted fn := by
  have hcache : (uploadSeed cache fn true fileHash (some v) now).cache
      = insertEntry cache fn
        { hash := fileHash, is_safe := v.is_safe, path := uploadSeedPath fn,
          scores := some v.scores, error := none, checked_at := now } := by
    unfold uploadSeed
    rw [hext]
    rfl
  have hres : (uploadSeed cache fn true fileHash (some v) now).res
      = UploadRes.ok fn fileHash v.is_safe := by
    unfold uploadSeed
    rw [hext]
    rfl
  have hlk' : lookupEntry (uploadSeed cache fn true fileHash (some v) now).cache fn
      = some { hash := fileHash, is_safe := v.is_safe, path := uploadSeedPath fn,
               scores := some v.scores, error := none, checked_at := now } := by
    rw [hcache, lookupEntry_insertEntry_self]
  refine ⟨hres, ⟨_, hlk', rfl, rfl, rfl, ?_⟩, ?_⟩
  · intro heq
    rw [← heq] at hdef
    rw [uploadSeedPath_startsWith fn] at hdef
    cases hdef
  · unfold deleteSeed
    rw [hlk']
    simp [uploadSeedPath_startsWith fn]

/-- Witness for C10: uploading `default.png` shadows the bundled
default seed's record and makes that name deletable. -/
theorem c10_upload_shadows_default_witness :
    (uploadSeed cacheOne "default.png" true "h2" (some ⟨true, ⟨1, 0, 0, 0⟩⟩) 5).res
      = UploadRes.ok "default.png" "h2" true ∧
    (∃ e', lookupEntry
        (uploadSeed cacheOne "default.png" true "h2"
          (some ⟨true, ⟨1, 0, 0, 0⟩⟩) 5).cache "default.png" = some e' ∧
      e'.path = uploadSeedPath "default.png" ∧ e'.hash = "h2" ∧
      e'.is_safe = (⟨true, ⟨1, 0, 0, 0⟩⟩ : Verdict).is_safe ∧ e' ≠ entryOne) ∧
    (deleteSeed
        (uploadSeed cacheOne "default.png" true "h2"
          (some ⟨true, ⟨1, 0, 0, 0⟩⟩) 5).cache "default.png").1
      = DeleteRes.deleted "default.png" :=
  c10_upload_shadows_default cacheOne "default.png" entryOne "h2"
    ⟨true, ⟨1, 0, 0, 0⟩⟩ 5 (by decide) (by decide) (by decide)

/-! ## Lemmas: model switch mid-session (claim C9) -/

/-- C9 (counterexample): a live `set_model` does not return the
session to `waiting_for_seed` with a cleared seed slot.  With the
default seed `default.png` present and verified, the switch
immediately loads it: the seed slot ends up occupied and no
`waiting_for_seed` status is emitted. -/
theorem c9_switch_keeps_no_waiting :
    (handleModelRequest cacheOne fsOne (fun p => some p) (some "Model-B")
        (some "stale") 7 none).slot
      = some (defaultSeedPath "default.png") ∧
    (handleModelRequest cacheOne fsOne (fun p => some p) (some "Model-B")
        (some "stale") 7 none).slot ≠ none ∧
    OutMsg.status statusWaitingForSeed ∉
      (handleModelRequest cacheOne fsOne (fun p => some p) (some "Model-B")
        (some "stale") 7 none).sent := by
  refine ⟨by decide, by decide, by decide⟩

/-- C9 (amended): on a live `set_model` with a nonempty model id the
server clears the seed slot and zeroes the frame counter, then
immediately attempts to load `DEFAULT_INITIAL_SEED` (`default.png`)
through the full four-step verification (the live-switch call passes
no seed filename).  `waiting_for_seed` is emitted exactly when that
load fails, in which case the slot stays empty.  The outcome is
independent of the previous session's seed slot and frame counter, so
the prior seed is never reused. -/
theorem c9_switch_loads_default {F : Type} (cache : List (String × SeedEntry))
    (fs : SeedFS) (decode : String → Option F) (modelUri : Option String)
    (slot slot2 : Option F) (fc fc2 : Nat)
    (hread : ∀ p, fs.fileExists p = true → (fs.hashFile p).isSome = true)
    (hm : strStrip (modelUri.getD "") ≠ "") :
    (handleModelRequest cache fs decode modelUri slot fc none).frameCount = 0 ∧
    ((handleModelRequest cache fs decode modelUri slot fc none).slot = none ∨
      ∃ e fr, lookupEntry cache defaultInitialSeed = some e ∧
        e.is_safe = true ∧ fs.fileExists e.path = true ∧
        fs.hashFile e.path = some e.hash ∧ decode e.path = some fr ∧
        (handleModelRequest cache fs decode modelUri slot fc none).slot
          = some fr) ∧
    (OutMsg.status statusWaitingForSeed ∈
        (handleModelRequest cache fs decode modelUri slot fc none).sent ↔
      (handleModelRequest cache fs decode modelUri slot fc none).slot = none) ∧
    handleModelRequest cache fs decode modelUri slot fc none
      = handleModelRequest cache fs decode modelUri slot2 fc2 none := by
  have hnr := loadInitialSeed_not_raised cache fs decode none
    (some defaultInitialSeed) hread
  have hu : ∀ (s : Option F) (n : Nat),
      handleModelRequest cache fs decode modelUri s n none
        = ⟨(loadInitialSeed cache fs decode none (some defaultInitialSeed)).slot, 0,
           [OutMsg.status statusLoading] ++
             (loadInitialSeed cache fs decode none (some defaultInitialSeed)).sent ++
             (if (loadInitialSeed cache fs decode none (some defaultInitialSeed)).ok
              then [] else [OutMsg.status statusWaitingForSeed]),
           (loadInitialSeed cache fs decode none (some defaultInitialSeed)).ok,
           false⟩ := by
    intro s n
    simp only [handleModelRequest]
    rw [if_neg hm]
    simp [hnr]
  refine ⟨by rw [hu], ?_, ?_, by rw [hu slot fc, hu slot2 fc2]⟩
  · cases hok : (loadInitialSeed cache fs decode none (some defaultInitialSeed)).ok
      with
    | false =>
      left
      rw [hu]
      exact (loadInitialSeed_spec cache fs decode none (some defaultInitialSeed)).2.1
        hok
    | true =>
      right
      obtain ⟨f, e, fr, hf, hlk, hsafe, hex, hhash, hdec, hslot, _⟩ :=
        (loadInitialSeed_spec cache fs decode none (some defaultInitialSeed)).1 hok
      cases hf
      exact ⟨e, fr, hlk, hsafe, hex, hhash, hdec, by rw [hu]; exact hslot⟩
  · rw [hu]
    cases hok : (loadInitialSeed cache fs decode none (some defaultInitialSeed)).ok
      with
    | false =>
      have hslot :=
        (loadInitialSeed_spec cache fs decode none (some defaultInitialSeed)).2.1 hok
      simp [hok, hslot]
    | true =>
      obtain ⟨f, e, fr, hf, hlk, hsafe, hex, hhash, hdec, hslot, hsent⟩ :=
        (loadInitialSeed_spec cache fs decode none (some defaultInitialSeed)).1 hok
      simp [hok, hsent, hslot, statusWaitingForSeed, statusLoading]

/-- Witness for C9's amended statement at the concrete one-seed file
system. -/
theorem c9_switch_loads_default_witness :
    (handleModelRequest cacheOne fsOne (fun p => some p) (some "Model-B")
        none 0 none).frameCount = 0 ∧
    ((handleModelRequest cacheOne fsOne (fun p => some p) (some "Model-B")
        none 0 none).slot = none ∨
      ∃ e fr, lookupEntry cacheOne defaultInitialSeed = some e ∧
        e.is_safe = true ∧ fsOne.fileExists e.path = true ∧
        fsOne.hashFile e.path = some e.hash ∧
        (fun p => some p) e.path = some fr ∧
        (handleModelRequest cacheOne fsOne (fun p => some p) (some "Model-B")
          none 0 none).slot = some fr) := by
  have hread : ∀ p, fsOne.fileExists p = true → (fsOne.hashFile p).isSome = true := by
    intro p hp
    simp only [fsOne] at hp ⊢
    have : p = defaultSeedPath "default.png" := eq_of_beq hp
    subst this
    simp
  have h := c9_switch_loads_default cacheOne fsOne (fun p => some p)
    (some "Model-B") none none 0 0 hread (by decide)
  exact ⟨h.1, h.2.1⟩

/-! ## Lemmas: validate-and-update idempotence (claim C7) -/

theorem mkCacheEntry_valid (fs : SeedFS) (n p : String) (now : Nat)
    (hwf : FSWellFormed fs) (hread : FSReadable fs)
    (hex : fs.fileExists p = true) :
    EntryValid fs (n, mkCacheEntry fs p now) := by
  have hsome := hread p hex
  cases hh : fs.hashFile p with
  | none => rw [hh] at hsome; simp at hsome
  | some h =>
    unfold EntryValid mkCacheEntry
    rw [hh]
    exact ⟨hex, hwf.2 p h hh, hh⟩

theorem rescanSeeds_entries_valid (fs : SeedFS) (now : Nat)
    (hwf : FSWellFormed fs) (hread : FSReadable fs) :
    ∀ kv ∈ (rescanSeeds fs now).files, EntryValid fs kv := by
  intro kv hkv
  rcases mem_foldl_insertEntry Prod.fst (fun np => mkCacheEntry fs np.2 now)
      (seedsOnDisk fs) [] kv hkv with h | ⟨np, hnp, heq⟩
  · simp at h
  · subst heq
    exact mkCacheEntry_valid fs np.1 np.2 now hwf hread (hwf.1 np hnp)

theorem rescanSeeds_covers (fs : SeedFS) (now : Nat) (n : String)
    (h : containsKey (currentFileMap fs) n = true) :
    containsKey (rescanSeeds fs now).files n = true := by
  cases hlk : lookupEntry (currentFileMap fs) n with
  | none => rw [containsKey, hlk] at h; simp at h
  | some p =>
    have hmem := lookupEntry_mem hlk
    rcases mem_foldl_insertEntry Prod.fst Prod.snd (seedsOnDisk fs) [] (n, p) hmem
      with h1 | ⟨np, hnp, heq⟩
    · simp at h1
    · exact containsKey_foldl_insertEntry Prod.fst
        (fun np => mkCacheEntry fs np.2 now) (seedsOnDisk fs) [] n
        (Or.inr ⟨np, hnp, (congrArg Prod.fst heq).symm⟩)

theorem cacheKept_entries_valid (c : SeedCache) (fs : SeedFS)
    (hmis : (cacheMismatched c fs).isEmpty = true) :
    ∀ kv ∈ cacheKept c fs, EntryValid fs kv := by
  intro kv hkv
  have hex : fs.fileExists kv.2.path = true :=
    (List.mem_filter.mp hkv).2
  have hnot : ¬ (kv.2.hash == "" || fs.hashFile kv.2.path != some kv.2.hash)
      = true := by
    intro hbad
    have : kv ∈ cacheMismatched c fs := List.mem_filter.mpr ⟨hkv, hbad⟩
    rw [List.isEmpty_iff.mp hmis] at this
    simp at this
  rw [Bool.or_eq_true, not_or] at hnot
  refine ⟨hex, ?_, ?_⟩
  · intro hh
    exact hnot.1 (by rw [hh]; rfl)
  · by_cases hh : fs.hashFile kv.2.path = some kv.2.hash
    · exact hh
    · exact absurd (by simpa [bne] using hh) hnot.2

/-- The snapshot produced by any successful `validate_and_update_cache`
call consists of validated entries and covers every file on disk. -/
theorem validateAndUpdateCache_output (c c1 : SeedCache) (fs : SeedFS)
    (now : Nat) (s : Bool) (hwf : FSWellFormed fs) (hread : FSReadable fs)
    (h : validateAndUpdateCache c fs now = some (c1, s)) :
    (∀ kv ∈ c1.files, EntryValid fs kv) ∧
    (∀ n, containsKey (currentFileMap fs) n = true →
      containsKey c1.files n = true) := by
  unfold validateAndUpdateCache at h
  by_cases hemp : c.files.isEmpty = true
  · rw [if_pos hemp] at h
    cases h
    exact ⟨rescanSeeds_entries_valid fs now hwf hread,
      fun n hn => rescanSeeds_covers fs now n hn⟩
  · rw [if_neg hemp] at h
    by_cases hexn : hashRaises c fs = true
    · rw [if_pos hexn] at h
      exact Option.noConfusion h
    · rw [if_neg hexn] at h
      by_cases hmis : (!(cacheMismatched c fs).isEmpty) = true
      · rw [if_pos hmis] at h
        cases h
        exact ⟨rescanSeeds_entries_valid fs now hwf hread,
          fun n hn => rescanSeeds_covers fs now n hn⟩
      · rw [if_neg hmis] at h
        have hmis' : (cacheMismatched c fs).isEmpty = true := by
          simpa using hmis
        by_cases hnoc : ((cacheMissing c fs).isEmpty && (cacheNewFiles c fs).isEmpty)
            = true
        · rw [if_pos hnoc] at h
          have hpair := Option.some.inj h
          have hc1 : c = c1 := congrArg Prod.fst hpair
          subst hc1
          obtain ⟨hmiss, hnew⟩ := Bool.and_eq_true_iff.mp hnoc
          have hkept : cacheKept c fs = c.files := by
            unfold cacheKept
            refine List.filter_eq_self.mpr ?_
            intro kv hkv
            by_cases hex : fs.fileExists kv.2.path = true
            · exact hex
            · exfalso
              have : kv ∈ cacheMissing c fs := by
                unfold cacheMissing
                refine List.mem_filter.mpr ⟨hkv, ?_⟩
                simp [hex]
              rw [List.isEmpty_iff.mp hmiss] at this
              simp at this
          constructor
          · intro kv hkv
            exact cacheKept_entries_valid c fs hmis' kv (by rw [hkept]; exact hkv)
          · intro n hn
            cases hlk : lookupEntry (currentFileMap fs) n with
            | none => rw [containsKey, hlk] at hn; simp at hn
            | some p =>
              have hmem := lookupEntry_mem hlk
              by_cases hck : containsKey (cacheKept c fs) n = true
              · rw [hkept] at hck
                exact hck
              · exfalso
                have : (n, p) ∈ cacheNewFiles c fs := by
                  unfold cacheNewFiles
                  refine List.mem_filter.mpr ⟨hmem, ?_⟩
                  simp [hck]
                rw [List.isEmpty_iff.mp hnew] at this
                simp at this
        · rw [if_neg hnoc] at h
          cases h
          constructor
          · intro kv hkv
            rcases mem_foldl_insertEntry Prod.fst
                (fun np => mkCacheEntry fs np.2 now) (cacheNewFiles c fs)
                (cacheKept c fs) kv hkv with h1 | ⟨np, hnp, heq⟩
            · exact cacheKept_entries_valid c fs hmis' kv h1
            · subst heq
              have hmem : (np.1, np.2) ∈ currentFileMap fs :=
                (List.mem_filter.mp hnp).1
              rcases mem_foldl_insertEntry Prod.fst Prod.snd (seedsOnDisk fs) []
                  (np.1, np.2) hmem with h2 | ⟨sp, hsp, heq2⟩
              · simp at h2
              · have hex : fs.fileExists np.2 = true := by
                  rw [(congrArg Prod.snd heq2)]
                  exact hwf.1 sp hsp
                exact mkCacheEntry_valid fs np.1 np.2 now hwf hread hex
          · intro n hn
            cases hlk : lookupEntry (currentFileMap fs) n with
            | none => rw [containsKey, hlk] at hn; simp at hn
            | some p =>
              have hmem := lookupEntry_mem hlk
              by_cases hck : containsKey (cacheKept c fs) n = true
              · exact containsKey_foldl_insertEntry Prod.fst
                  (fun np => mkCacheEntry fs np.2 now) (cacheNewFiles c fs)
                  (cacheKept c fs) n (Or.inl hck)
              · have : (n, p) ∈ cacheNewFiles c fs := by
                  unfold cacheNewFiles
                  refine List.mem_filter.mpr ⟨hmem, ?_⟩
                  simp [hck]
                exact containsKey_foldl_insertEntry Prod.fst
                  (fun np => mkCacheEntry fs np.2 now) (cacheNewFiles c fs)
                  (cacheKept c fs) n (Or.inr ⟨(n, p), this, rfl⟩)

/-- A second `validate_and_update_cache` call over a validated,
covering, nonempty snapshot is a no-op: nothing is rescanned or
saved and the snapshot is returned unchanged. -/
theorem validateAndUpdateCache_noop (c1 : SeedCache) (fs : SeedFS) (t2 : Nat)
    (hvalid : ∀ kv ∈ c1.files, EntryValid fs kv)
    (hcover : ∀ n, containsKey (currentFileMap fs) n = true →
      containsKey c1.files n = true)
    (hne : c1.files ≠ []) :
    validateAndUpdateCache c1 fs t2 = some (c1, false) := by
  have hkept : cacheKept c1 fs = c1.files := by
    unfold cacheKept
    exact List.filter_eq_self.mpr (fun kv hkv => (hvalid kv hkv).1)
  have hmiss : cacheMissing c1 fs = [] := by
    unfold cacheMissing
    refine List.filter_eq_nil_iff.mpr ?_
    intro kv hkv
    simp [(hvalid kv hkv).1]
  have hmis : cacheMismatched c1 fs = [] := by
    unfold cacheMismatched
    rw [hkept]
    refine List.filter_eq_nil_iff.mpr ?_
    intro kv hkv
    obtain ⟨_, hh, hhash⟩ := hvalid kv hkv
    simp [hhash, hh]
  have hnew : cacheNewFiles c1 fs = [] := by
    unfold cacheNewFiles
    rw [hkept]
    refine List.filter_eq_nil_iff.mpr ?_
    intro np hnp
    have : containsKey c1.files np.1 = true :=
      hcover np.1 (containsKey_of_mem hnp)
    simp [this]
  unfold validateAndUpdateCache
  rw [if_neg (fun hh => hne (List.isEmpty_iff.mp hh))]
  have hraise : hashRaises c1 fs = false := by
    unfold hashRaises
    refine List.any_eq_false.mpr ?_
    intro kv hkv
    simp [(hvalid kv hkv).2.2]
  rw [if_neg (by rw [hraise]; exact Bool.false_ne_true)]
  rw [if_neg (by rw [hmis]; simp)]
  rw [if_pos (by rw [hmiss, hnew]; rfl)]

/-- C7 (counterexample): with no seed files on disk and an empty
cache, every `validate_and_update_cache` call performs (and saves) a
full rescan, and the two snapshots differ in `last_scan` — the second
call is not a no-op and its snapshot is not identical. -/
theorem c7_validate_not_idempotent :
    validateAndUpdateCache ⟨[], none⟩ fsEmpty 0 = some (⟨[], some 0⟩, true) ∧
    validateAndUpdateCache ⟨[], some 0⟩ fsEmpty 1 = some (⟨[], some 1⟩, true) ∧
    (⟨[], some 1⟩ : SeedCache) ≠ ⟨[], some 0⟩ := by
  refine ⟨rfl, rfl, by decide⟩

/-- C7 (amended): when the directories hold at least one seed file and
the file system is unchanged, well-formed and fully readable between
the calls, a second `validate_and_update_cache` call is a no-op: it
saves nothing and returns a snapshot identical (including `last_scan`)
to the one produced by the first call.  (With an empty seed directory,
or an existing file that cannot be hashed, the second call instead
repeats a full rescan and re-stamps `last_scan`.) -/
theorem c7_validate_idempotent_on_stable_fs (c c1 : SeedCache) (fs : SeedFS)
    (t1 t2 : Nat) (s1 : Bool) (hwf : FSWellFormed fs) (hread : FSReadable fs)
    (hne : seedsOnDisk fs ≠ [])
    (h1 : validateAndUpdateCache c fs t1 = some (c1, s1)) :
    validateAndUpdateCache c1 fs t2 = some (c1, false) := by
  obtain ⟨hvalid, hcover⟩ := validateAndUpdateCache_output c c1 fs t1 s1 hwf hread h1
  have hinhab : ∃ n, containsKey (currentFileMap fs) n = true := by
    match hs : seedsOnDisk fs with
    | [] => exact absurd hs hne
    | np :: t =>
      refine ⟨np.1, ?_⟩
      unfold currentFileMap
      exact containsKey_foldl_insertEntry Prod.fst Prod.snd (seedsOnDisk fs) []
        np.1 (Or.inr ⟨np, by rw [hs]; exact List.mem_cons_self _ _, rfl⟩)
  obtain ⟨n, hn⟩ := hinhab
  have hne1 : c1.files ≠ [] := by
    intro hnil
    have := hcover n hn
    rw [hnil] at this
    simp [containsKey, lookupEntry] at this
  exact validateAndUpdateCache_noop c1 fs t2 hvalid hcover hne1

/-- Witness for C7's amended statement: over the one-seed file system,
a first call (full rescan from the empty cache) followed by a second
call with an unchanged file system returns the identical snapshot
without saving. -/
theorem c7_validate_idempotent_on_stable_fs_witness :
    validateAndUpdateCache ⟨cacheOne, some 0⟩ fsOne 1
      = some (⟨cacheOne, some 0⟩, false) := by
  have hwf : FSWellFormed fsOne := by
    constructor
    · decide
    · intro p h hp
      simp only [fsOne] at hp
      by_cases hb : (p == defaultSeedPath "default.png") = true
      · rw [if_pos hb] at hp
        cases hp
        decide
      · rw [if_neg hb] at hp
        exact Option.noConfusion hp
  have hread : FSReadable fsOne := by
    intro p hp
    simp only [fsOne] at hp ⊢
    have : p = defaultSeedPath "default.png" := eq_of_beq hp
    subst this
    simp
  exact c7_validate_idempotent_on_stable_fs ⟨[], none⟩ ⟨cacheOne, some 0⟩ fsOne
    0 1 true hwf hread (by decide) (by decide)

end Biome
